import Mathlib

/-!
Shallow embedding of the render/reconciliation and lifecycle-tracking core of
the `tinywasm/dom` repository (the `domWasm` driver in `component_frontend.go`,
the declarative `Element` model in `element.go`, the id generator in `dom.go`
and the event adapter `elementWasm.On` in `element_wasm.go`), together with
theorems settling the frozen claims about that core.

Modelling conventions:
  * Go slices become Lean lists; the swap-remove idiom (`l[i] = l[last]`,
    truncate) is `swapRemove`.
  * `js.Value` node handles and `js.Func` callback handles become `Nat` tags;
    the host document is a forest of nodes carrying a handle, an id attribute
    and children.  Inserting markup is modelled by handing the structured
    node list (the exact ids/nesting of the emitted tags) to the document,
    which is what the browser's parse of that same markup produces.
  * Event handler functions are opaque `Nat` tags.
  * Machine integers: the Go id counter is a `uint64`, modelled as `Nat`
    reduced `% 2 ^ 64` at each increment.
-/

namespace TinywasmDom

/-! ## Id generation (`dom.go`) -/

/-- Modulus of the Go `uint64` id counter declared in `dom.go`. -/
def uint64Mod : Nat := 2 ^ 64

/-- Decimal digit to character, `0 ↦ '0'`, …, `9 ↦ '9'`. -/
def digitChar (d : Nat) : Char := Char.ofNat (48 + d)

/-- Most-significant-first decimal digits of `n`, driven by fuel so that the
definition is structural (any fuel `≥ n` gives the exact digit expansion). -/
def decDigitsGo : Nat → Nat → List Nat
  | 0, n => [n]
  | fuel + 1, n => if n < 10 then [n] else decDigitsGo fuel (n / 10) ++ [n % 10]

/-- Modelled from the spec: the decimal rendering of the unsigned counter
performed by the external formatting helper (`fmt.Sprint` of the
`github.com/tinywasm/fmt` dependency, whose source is not in the repository);
the spec describes auto-generated identifiers as produced by "the global id
generator", a decimal counter. -/
def decRepr (n : Nat) : String := String.mk ((decDigitsGo n n).map digitChar)

/-- `generateID` from `dom.go`: increments the process-wide `uint64` counter
and returns its decimal rendering.  Takes and returns the counter explicitly
(the Go code keeps it in a package-level variable). -/
def generateID (c : Nat) : String × Nat :=
  let c2 := (c + 1) % uint64Mod
  (decRepr c2, c2)

/-- Counter value after `n` calls to `generateID`, starting from the zero
value the Go package variable is initialised with. -/
def counterAfter : Nat → Nat
  | 0 => 0
  | n + 1 => (generateID (counterAfter n)).2

/-- The string returned by the `k`-th call to `generateID` (calls numbered
from 1). -/
def idOfCall (k : Nat) : String := (generateID (counterAfter (k - 1))).1

/-! ## The declarative element model (`element.go`) -/

/-- One event binding on an element (`eventHandler` in `interface.dom.go`):
an event name plus an opaque handler tag. -/
structure EventB where
  name : String
  handler : Nat
deriving DecidableEq, Repr

mutual
/-- `Element` from `element.go`: tag, id, classes, ordered attributes,
event bindings, the void (self-closing) flag and the children list. -/
inductive Elem where
  | mk (tag : String) (eid : String) (classes : List String)
       (attrs : List (String × String)) (events : List EventB)
       (void : Bool) (children : List Child) : Elem

/-- A child of an `Element` (`children []any` in the Go code): a nested
element, a raw text string, or an opaque component. -/
inductive Child where
  | elem (e : Elem) : Child
  | text (s : String) : Child
  | comp (c : Comp) : Child

/-- A component: a stable identifier plus its rendering capability.  The Go
`Component` is an interface; the modelled components are `BaseComponent`
style values (plain gettable/settable id, no declared `Children()`, no
mount/update/unmount hooks — all those capabilities are optional and their
absence is skipped by the driver). -/
inductive Comp where
  | mk (cid : String) (kind : CKind) : Comp

/-- Rendering capability of a component: a `ViewRenderer` returning a fixed
declarative tree, or the raw-markup `RenderHTML` fallback. -/
inductive CKind where
  | view (root : Elem) : CKind
  | raw (html : String) : CKind
end

/-- Tag of an element. -/
def Elem.tag : Elem → String
  | .mk t _ _ _ _ _ _ => t

/-- Id of an element. -/
def Elem.eid : Elem → String
  | .mk _ i _ _ _ _ _ => i

/-- Classes of an element. -/
def Elem.classes : Elem → List String
  | .mk _ _ c _ _ _ _ => c

/-- Attributes of an element. -/
def Elem.attrs : Elem → List (String × String)
  | .mk _ _ _ a _ _ _ => a

/-- Event bindings of an element. -/
def Elem.events : Elem → List EventB
  | .mk _ _ _ _ e _ _ => e

/-- Void flag of an element. -/
def Elem.voidFlag : Elem → Bool
  | .mk _ _ _ _ _ v _ => v

/-- Children of an element. -/
def Elem.children : Elem → List Child
  | .mk _ _ _ _ _ _ k => k

/-- Identifier of a component (`GetID`). -/
def Comp.cid : Comp → String
  | .mk i _ => i

/-- Rendering capability of a component. -/
def Comp.kind : Comp → CKind
  | .mk _ k => k

/-- `injectComponentID` (frontend helper): sets the component id on the root
element if the root has no id of its own. -/
def injectComponentID (el : Elem) (id : String) : Elem :=
  match el with
  | .mk t i c a e v k => if i = "" then .mk t id c a e v k else .mk t i c a e v k

/-- Space-joined class list, mirroring the `for i, c` loop of the Go
serializers (separator only between entries). -/
def joinClasses : List String → String
  | [] => ""
  | c :: rest => rest.foldl (fun acc x => acc ++ " " ++ x) c

/-- Attribute serialization, mirroring the `for _, attr` loop:
` key='value'` for each pair in insertion order. -/
def attrsHTML (attrs : List (String × String)) : String :=
  attrs.foldl (fun acc a => acc ++ " " ++ a.1 ++ "='" ++ a.2 ++ "'") ""

mutual
/-- `elementToHTML` from `element.go`: the pure serializer used by
`(*Element).RenderHTML` (no id assignment, no pending events). -/
def elementToHTML : Elem → String
  | .mk tag eid cls attrs _ void kids =>
    let s := "<" ++ tag
      ++ (if eid ≠ "" then " id='" ++ eid ++ "'" else "")
      ++ (if cls ≠ [] then " class='" ++ joinClasses cls ++ "'" else "")
      ++ attrsHTML attrs ++ ">"
    if void then s
    else s ++ childrenToHTML kids ++ "</" ++ tag ++ ">"

/-- Child serialization switch of `elementToHTML`. -/
def childToHTML : Child → String
  | .elem e => elementToHTML e
  | .text t => t
  | .comp c => compRenderHTML c

/-- `Component.RenderHTML` of a modelled component: a view-rendering
component serializes its declarative tree, a raw component returns its
markup string. -/
def compRenderHTML : Comp → String
  | .mk _ (.view root) => elementToHTML root
  | .mk _ (.raw h) => h

/-- Serialization of a children list, in order. -/
def childrenToHTML : List Child → String
  | [] => ""
  | c :: rest => childToHTML c ++ childrenToHTML rest
end

/-! ## The stateful renderer (`renderToHTML` in `component_frontend.go`) -/

/-- One pending event entry `(id, name, handler)`, queued during
serialization to be wired after insertion into the document. -/
structure Pending where
  id : String
  name : String
  handler : Nat
deriving DecidableEq, Repr

/-- The driver state read and written by `renderToHTML`: the global id
counter, the `pendingEvents` queue, and the `comps` collection slice the
caller passes by reference. -/
structure RCtx where
  idCounter : Nat
  pending : List Pending
  comps : List Comp

/-- The node structure of a piece of emitted markup: the id attribute and
the nesting of the emitted tags.  This is what the browser's parse of the
markup contributes to the document (text and opaque raw markup contribute
no resolvable ids). -/
inductive MNode where
  | mk (id : String) (kids : List MNode) : MNode

/-- Result of `renderToHTML` on one element: the markup string, the element
after in-place id assignment, the markup node structure, and the updated
driver state. -/
structure ROut where
  html : String
  tree : Elem
  node : MNode
  ctx : RCtx

/-- Result of serializing one child. -/
structure COut where
  html : String
  child : Child
  nodes : List MNode
  ctx : RCtx

/-- Result of serializing a children list. -/
structure LOut where
  html : String
  children : List Child
  nodes : List MNode
  ctx : RCtx

mutual
/-- `renderToHTML` from `component_frontend.go`: serializes an element,
assigning a generated id when the element carries events but no id,
queueing a pending event per binding, and collecting component children.
Void elements are emitted as the open tag only. -/
def renderToHTML : Elem → RCtx → ROut
  | .mk tag eid cls attrs evs void kids, ctx =>
    -- if the element has events but no ID, generate one
    let p : String × RCtx :=
      if 0 < evs.length ∧ eid = "" then
        let g := generateID ctx.idCounter
        (g.1, { ctx with idCounter := g.2 })
      else (eid, ctx)
    let eid2 := p.1
    let ctx2 : RCtx :=
      { p.2 with pending := p.2.pending ++ evs.map (fun ev => ⟨eid2, ev.name, ev.handler⟩) }
    let s := "<" ++ tag
      ++ (if eid2 ≠ "" then " id='" ++ eid2 ++ "'" else "")
      ++ (if cls ≠ [] then " class='" ++ joinClasses cls ++ "'" else "")
      ++ attrsHTML attrs ++ ">"
    if void then
      -- no children, no closing tag
      ⟨s, .mk tag eid2 cls attrs evs void kids, .mk eid2 [], ctx2⟩
    else
      let r := renderChildren kids ctx2
      ⟨s ++ r.html ++ "</" ++ tag ++ ">", .mk tag eid2 cls attrs evs void r.children,
        .mk eid2 r.nodes, r.ctx⟩

/-- The child switch of `renderToHTML`.  A component child is appended to
the collection slice (the Go code appends the pointer before assigning the
id; with value semantics the assigned component is appended), given a
generated id when it has none, and serialized by capability: declarative
view first, raw markup fallback.  The rendered tree of a component child is
not stored back into the component (Go regenerates it on each `Render()`
call), so the returned child keeps the pristine capability. -/
def renderChild : Child → RCtx → COut
  | .elem e, ctx =>
    let r := renderToHTML e ctx
    ⟨r.html, .elem r.tree, [r.node], r.ctx⟩
  | .text t, ctx => ⟨t, .text t, [], ctx⟩
  | .comp (.mk cid kind), ctx =>
    let q : String × RCtx :=
      if cid = "" then
        let g := generateID ctx.idCounter
        (g.1, { ctx with idCounter := g.2 })
      else (cid, ctx)
    let cid2 := q.1
    let ctx1 : RCtx := { q.2 with comps := q.2.comps ++ [Comp.mk cid2 kind] }
    match kind with
    | .view root =>
      let r := renderToHTML root ctx1
      ⟨r.html, .comp (.mk cid2 (.view root)), [r.node], r.ctx⟩
    | .raw h => ⟨h, .comp (.mk cid2 (.raw h)), [], ctx1⟩

/-- Serialization of the children list, threading the driver state in
order. -/
def renderChildren : List Child → RCtx → LOut
  | [], ctx => ⟨"", [], [], ctx⟩
  | ch :: rest, ctx =>
    let r1 := renderChild ch ctx
    let r2 := renderChildren rest r1.ctx
    ⟨r1.html ++ r2.html, r1.child :: r2.children, r1.nodes ++ r2.nodes, r2.ctx⟩
end

mutual
/-- The element nodes visited by the serializer for one element: the
element itself and, unless it is void (whose children are never
serialized), the element nodes of its element children.  The views of
component children are serialized by their own top-level `renderToHTML`
calls and are covered by quantifying over all elements. -/
def elemsOfE : Elem → List Elem
  | .mk t i c a e v k => .mk t i c a e v k :: (if v then [] else elemsOfKids k)

/-- Element nodes visited inside one child. -/
def elemsOfC : Child → List Elem
  | .elem e => elemsOfE e
  | .text _ => []
  | .comp _ => []

/-- Element nodes visited inside a children list. -/
def elemsOfKids : List Child → List Elem
  | [] => []
  | c :: rest => elemsOfC c ++ elemsOfKids rest
end

/-! ## The host document

The core only needs the document operations listed in the spec: resolve an
id to a node handle, set inner content, set outer content, insert after
existing content, remove a node.  A document is a forest of nodes each
carrying a unique handle (standing for the `js.Value` identity of the live
node), its id attribute and its children.  `body` and `head` are modelled
as ordinary nodes carrying those ids. -/

/-- A live document node: handle, id attribute, children. -/
inductive DNode where
  | mk (handle : Nat) (id : String) (kids : List DNode) : DNode

/-- The host document: the node forest plus the fresh-handle counter. -/
structure Doc where
  roots : List DNode
  nextHandle : Nat

mutual
/-- First handle (in document order) whose node carries the id. -/
def findIdN : DNode → String → Option Nat
  | .mk h i kids, target =>
    if i = target then some h else findIdL kids target

/-- `findIdN` over a forest. -/
def findIdL : List DNode → String → Option Nat
  | [], _ => none
  | n :: rest, target =>
    match findIdN n target with
    | some h => some h
    | none => findIdL rest target
end

/-- `document.getElementById`: resolves an id to a node handle; the empty
id never matches (as in the browser). -/
def docGetElementById (doc : Doc) (id : String) : Option Nat :=
  if id = "" then none else findIdL doc.roots id

/-- `getElement` from `component_frontend.go`: the reserved identifiers
`body` and `head` resolve to the fixed document roots (modelled as the
nodes carrying those ids), everything else by exact id lookup. -/
def getElement (doc : Doc) (id : String) : Option Nat :=
  if id = "body" then findIdL doc.roots "body"
  else if id = "head" then findIdL doc.roots "head"
  else docGetElementById doc id

mutual
/-- Builds fresh document nodes from emitted markup structure (the
browser's parse of the markup), assigning fresh handles in order. -/
def buildNode : MNode → Nat → DNode × Nat
  | .mk i kids, h =>
    let r := buildNodes kids (h + 1)
    (.mk h i r.1, r.2)

/-- `buildNode` over a list. -/
def buildNodes : List MNode → Nat → List DNode × Nat
  | [], h => ([], h)
  | n :: rest, h =>
    let r1 := buildNode n h
    let r2 := buildNodes rest r1.2
    (r1.1 :: r2.1, r2.2)
end

mutual
/-- Replaces the children of the node with the given handle. -/
def setInnerN : DNode → Nat → List DNode → DNode
  | .mk h i kids, target, newKids =>
    if h = target then .mk h i newKids
    else .mk h i (setInnerL kids target newKids)

/-- `setInnerN` over a forest. -/
def setInnerL : List DNode → Nat → List DNode → List DNode
  | [], _, _ => []
  | n :: rest, target, newKids =>
    setInnerN n target newKids :: setInnerL rest target newKids
end

/-- `innerHTML` assignment: the children of the target node are replaced by
fresh nodes parsed from the markup. -/
def docSetInner (doc : Doc) (target : Nat) (ns : List MNode) : Doc :=
  let b := buildNodes ns doc.nextHandle
  ⟨setInnerL doc.roots target b.1, b.2⟩

mutual
/-- Outer replacement on one node: the node with the target handle is
replaced (subtree and all) by the replacement nodes; any other node keeps
its place with its children rewritten. -/
def setOuterN : DNode → Nat → List DNode → List DNode
  | .mk h i kids, target, repl =>
    if h = target then repl
    else [.mk h i (setOuterL kids target repl)]

/-- `setOuterN` over a forest. -/
def setOuterL : List DNode → Nat → List DNode → List DNode
  | [], _, _ => []
  | n :: rest, target, repl => setOuterN n target repl ++ setOuterL rest target repl
end

/-- `outerHTML` assignment: the target node is replaced in place by fresh
nodes parsed from the markup. -/
def docSetOuter (doc : Doc) (target : Nat) (ns : List MNode) : Doc :=
  let b := buildNodes ns doc.nextHandle
  ⟨setOuterL doc.roots target b.1, b.2⟩

mutual
/-- Appends nodes after the existing children of the target node. -/
def appendKidsN : DNode → Nat → List DNode → DNode
  | .mk h i kids, target, newKids =>
    if h = target then .mk h i (kids ++ newKids)
    else .mk h i (appendKidsL kids target newKids)

/-- `appendKidsN` over a forest. -/
def appendKidsL : List DNode → Nat → List DNode → List DNode
  | [], _, _ => []
  | n :: rest, target, newKids =>
    appendKidsN n target newKids :: appendKidsL rest target newKids
end

/-- `insertAdjacentHTML("beforeend", …)`: fresh nodes parsed from the
markup are appended after the target's existing children. -/
def docAppendChildren (doc : Doc) (target : Nat) (ns : List MNode) : Doc :=
  let b := buildNodes ns doc.nextHandle
  ⟨appendKidsL doc.roots target b.1, b.2⟩

mutual
/-- Removal on one node: the node with the target handle disappears (with
its subtree); any other node keeps its place with its children rewritten. -/
def removeN : DNode → Nat → List DNode
  | .mk h i kids, target =>
    if h = target then [] else [.mk h i (removeL kids target)]

/-- `removeN` over a forest. -/
def removeL : List DNode → Nat → List DNode
  | [], _ => []
  | n :: rest, target => removeN n target ++ removeL rest target
end

/-- `element.remove()`. -/
def docRemove (doc : Doc) (target : Nat) : Doc :=
  ⟨removeL doc.roots target, doc.nextHandle⟩

/-! ## The registry core (`domWasm` state in `component_frontend.go`) -/

/-- One entry of the `eventFuncs` store: the event key, the handle of the
node the listener is attached to, and the platform callback handle
(`js.Func`, an opaque tag here). -/
structure EventFunc where
  key : String
  val : Nat
  fn : Nat
deriving DecidableEq, Repr

/-- The `domWasm` driver state: the document plus the four registry tables,
the current-component marker, the pending-event queue and the two fresh
counters (the global id counter of `dom.go` and the fresh callback-handle
supply standing for `js.FuncOf`). -/
structure DState where
  doc : Doc
  elementCache : List (String × Nat)
  eventFuncs : List EventFunc
  componentListeners : List (String × List String)
  currentComponentID : String
  pendingEvents : List Pending
  mountedComponents : List (String × Comp)
  childrenMap : List (String × List String)
  idCounter : Nat
  nextFn : Nat

/-- The Go swap-remove idiom: overwrite index `i` with the last element and
truncate (`l[i] = l[lastIdx]; l = l[:lastIdx]`). -/
def swapRemove {α : Type} (l : List α) (i : Nat) : List α :=
  match l.getLast? with
  | none => l
  | some last => (l.set i last).dropLast

/-- Linear scan of an association list for the first entry with the given
key, returning its index and value — the loop idiom used by every registry
table. -/
def findIdxVal {α : Type} : List (String × α) → String → Option (Nat × α)
  | [], _ => none
  | p :: rest, id =>
    if p.1 = id then some (0, p.2)
    else (findIdxVal rest id).map (fun q => (q.1 + 1, q.2))

/-- `Get` from `component_frontend.go`: linear-scan the element cache
first; on miss resolve against the document and cache the result. -/
def Get (s : DState) (id : String) : DState × Option Nat :=
  match findIdxVal s.elementCache id with
  | some (_, h) => (s, some h)
  | none =>
    match getElement s.doc id with
    | none => (s, none)
    | some h => ({ s with elementCache := s.elementCache ++ [(id, h)] }, some h)

/-- `elementWasm.On` from `element_wasm.go`: builds the event key
`id::eventType`, allocates a platform callback (a fresh `fn` tag standing
for `js.FuncOf`; the `addEventListener` platform call itself is outside the
registry model), appends the callback to `eventFuncs`, and — when a
component is marked as being mounted — appends the key to that component's
listener list, creating the entry if needed. -/
def On (s : DState) (eid : String) (val : Nat) (name : String) (_handler : Nat) : DState :=
  let eventKey := eid ++ "::" ++ name
  let fn := s.nextFn
  let s1 : DState :=
    { s with nextFn := fn + 1, eventFuncs := s.eventFuncs ++ [⟨eventKey, val, fn⟩] }
  if s1.currentComponentID ≠ "" then
    let compID := s1.currentComponentID
    match findIdxVal s1.componentListeners compID with
    | some (i, keys) =>
      { s1 with componentListeners := s1.componentListeners.set i (compID, keys ++ [eventKey]) }
    | none =>
      { s1 with componentListeners := s1.componentListeners ++ [(compID, [eventKey])] }
  else s1

/-- `trackComponent`: insert into the mounted-components table unless an
entry with the same id is already present. -/
def trackComponent (s : DState) (c : Comp) : DState :=
  match findIdxVal s.mountedComponents c.cid with
  | some _ => s -- already tracked
  | none => { s with mountedComponents := s.mountedComponents ++ [(c.cid, c)] }

/-- `untrackComponent`: swap-remove the first entry with the id. -/
def untrackComponent (s : DState) (id : String) : DState :=
  match findIdxVal s.mountedComponents id with
  | some (i, _) => { s with mountedComponents := swapRemove s.mountedComponents i }
  | none => s

/-- `trackChildren`: track each child component, then overwrite (or insert)
the parent's entry in the children-of-parent table with the new child-id
list. -/
def trackChildren (s : DState) (parentID : String) (children : List Comp) : DState :=
  let childIDs := children.map Comp.cid
  let s1 := children.foldl trackComponent s
  match findIdxVal s1.childrenMap parentID with
  | some (i, _) => { s1 with childrenMap := s1.childrenMap.set i (parentID, childIDs) }
  | none => { s1 with childrenMap := s1.childrenMap ++ [(parentID, childIDs)] }

/-- `removeFromElementCache`: swap-remove the cache entry for the id. -/
def removeFromElementCache (s : DState) (id : String) : DState :=
  match findIdxVal s.elementCache id with
  | some (i, _) => { s with elementCache := swapRemove s.elementCache i }
  | none => s

/-- The inner loop of `cleanupListeners`: `for i := 0; i < len; i++` with
swap-remove and `i--` on a match, removing every entry whose key matches.
The loop runs at most `l.length` steps (each step either advances `i` or
shortens the list), so fuel `l.length + 1` reproduces it exactly; the
`removeEventListener`/`fn.Release()` platform calls on the removed entry
are outside the registry model. -/
def removeKeyGo (key : String) : Nat → List EventFunc → Nat → List EventFunc
  | 0, l, _ => l
  | fuel + 1, l, i =>
    if h : i < l.length then
      if (l.get ⟨i, h⟩).key = key then removeKeyGo key fuel (swapRemove l i) i
      else removeKeyGo key fuel l (i + 1)
    else l

/-- `cleanupListeners`: release every callback owned by `id` (every
`eventFuncs` entry whose key is in the component's listener list) and
delete the component's entry from the listener registry; a no-op for an id
with no listeners. -/
def cleanupListeners (s : DState) (id : String) : DState :=
  match findIdxVal s.componentListeners id with
  | none => s
  | some (i, keys) =>
    let efs := keys.foldl (fun l key => removeKeyGo key (l.length + 1) l 0) s.eventFuncs
    { s with eventFuncs := efs,
             componentListeners := swapRemove s.componentListeners i }

/-- The head of `unmountRecursive`/`cleanupChildren`: find and swap-remove
the children-of-parent entry, returning the child-id list (empty when
absent). -/
def popChildren (s : DState) (pid : String) : DState × List String :=
  match findIdxVal s.childrenMap pid with
  | some (i, ids) => ({ s with childrenMap := swapRemove s.childrenMap i }, ids)
  | none => (s, [])

/-- Find and swap-remove a mounted-components entry, returning the
component instance when present. -/
def popMounted (s : DState) (id : String) : DState × Option Comp :=
  match findIdxVal s.mountedComponents id with
  | some (i, c) => ({ s with mountedComponents := swapRemove s.mountedComponents i }, some c)
  | none => (s, none)

mutual
/-- `unmountRecursive` from `component_frontend.go`, fuel-driven so that
the definition is structural.  The Go recursion always terminates because
every recursive call is preceded by the removal of a children-map entry or
a mounted-components entry, and every loop step consumes one child id;
`unmountFuel` below over-approximates that bound, so the wrapper reproduces
the Go behaviour exactly.  Modelled components have no declared
`Children()` and no `OnUnmount` hook (optional capabilities, skipped by the
driver), so those two steps contribute nothing. -/
def unmountRecursiveF : Nat → DState → Comp → DState
  | 0, s, _ => s
  | fuel + 1, s, c =>
    let r := popChildren s c.cid
    let s1 := unmountChildrenF fuel r.1 r.2
    let s2 := cleanupListeners s1 c.cid
    untrackComponent s2 c.cid

/-- The tracked-children loop shared by `unmountRecursive` and
`cleanupChildren`: pop each child from the mounted table and unmount it
recursively, falling back to listener-only cleanup when the instance is not
held. -/
def unmountChildrenF : Nat → DState → List String → DState
  | 0, s, _ => s
  | _ + 1, s, [] => s
  | fuel + 1, s, childID :: rest =>
    let r := popMounted s childID
    match r.2 with
    | some childComp => unmountChildrenF fuel (unmountRecursiveF fuel r.1 childComp) rest
    | none => unmountChildrenF fuel (cleanupListeners r.1 childID) rest
end

/-- Fuel bound for the unmount recursion: one unit per mounted entry, per
children-map entry and per queued child id, plus slack. -/
def unmountFuel (s : DState) : Nat :=
  s.mountedComponents.length + s.childrenMap.length
    + s.childrenMap.foldl (fun a p => a + p.2.length) 0 + 1

/-- `unmountRecursive` with the always-sufficient fuel. -/
def unmountRecursive (s : DState) (c : Comp) : DState :=
  unmountRecursiveF (unmountFuel s) s c

/-- `cleanupChildren`: the tracked-children part of `unmountRecursive`,
used by `Render` (on the parent id) and `Update`. -/
def cleanupChildren (s : DState) (parentID : String) : DState :=
  let r := popChildren s parentID
  unmountChildrenF (unmountFuel s) r.1 r.2

/-- Wiring of one pending event: resolve the id through the cache
(`Get`), and — when found — bind the handler with the current-component
marker set to the element's own id (the Go code sets
`currentComponentID = pe.id` around the `On` call). -/
def wireOne (s : DState) (pe : Pending) : DState :=
  match Get s pe.id with
  | (s1, some h) =>
    let prev := s1.currentComponentID
    let s2 := On { s1 with currentComponentID := pe.id } pe.id h pe.name pe.handler
    { s2 with currentComponentID := prev }
  | (s1, none) => s1

/-- `wirePendingEvents`: wire every queued entry in order, then clear the
queue. -/
def wirePendingEvents (s : DState) : DState :=
  let s1 := s.pendingEvents.foldl wireOne s
  { s1 with pendingEvents := [] }

/-- `mountRecursive`: sets and restores the current-component marker and
invokes the optional mount hook.  Modelled components have no `OnMount`
hook and no declared children, so the save/restore nets out and the state
is unchanged. -/
def mountRecursive (s : DState) (_c : Comp) : DState := s

/-! ## The lifecycle driver (`Render`/`Append`/`Update`/`Unmount`) -/

/-- The `renderToHTML` call site shared by the driver operations: the
capability dispatch of the Go code (`ViewRenderer` first — with the
component id injected into the root by `Render`/`Update`/`Append` — and the
raw `RenderHTML()` fallback, whose opaque markup contributes no resolvable
ids to the document model).  Returns the markup nodes and the updated
render state. -/
def serializeComp (s : DState) (c : Comp) (inject : String) : List MNode × RCtx :=
  match c.kind with
  | .view root =>
    let r := renderToHTML (injectComponentID root inject) ⟨s.idCounter, s.pendingEvents, []⟩
    ([r.node], r.ctx)
  | .raw _ => ([], ⟨s.idCounter, s.pendingEvents, []⟩)

/-- Writes the render state produced by serialization back into the driver
(the Go code keeps `idCounter` and `pendingEvents` in package/driver
fields). -/
def applyRCtx (s : DState) (ctx : RCtx) : DState :=
  { s with idCounter := ctx.idCounter, pendingEvents := ctx.pending }

/-- `Render` from `component_frontend.go`: assign the component an id if
empty; serialize (collecting children and pending events); resolve the
parent (failing with the parent-not-found error); clean up the parent's
previously tracked children; replace the parent's entire content; track
the component and its discovered children; wire pending events with the
current-component marker set around the call; mount-recursively (a no-op
for hook-free components).  The document-null guard of the Go code is
vacuous here: the model always has a document.  Returns the result, the
new state and the component (whose id assignment the Go caller observes
through the pointer). -/
def Render (s : DState) (parentID : String) (c0 : Comp) : Except String Unit × DState × Comp :=
  let p : Comp × DState :=
    if c0.cid = "" then
      let g := generateID s.idCounter
      (Comp.mk g.1 c0.kind, { s with idCounter := g.2 })
    else (c0, s)
  let c := p.1
  let r := serializeComp p.2 c c.cid
  let s2 := applyRCtx p.2 r.2
  match getElement s2.doc parentID with
  | none => (Except.error ("parent element not found: " ++ parentID), s2, c)
  | some parentH =>
    let s3 := cleanupChildren s2 parentID
    let s4 := { s3 with doc := docSetInner s3.doc parentH r.1 }
    let s5 := trackComponent s4 c
    let s6 := trackChildren s5 c.cid r.2.comps
    let prev := s6.currentComponentID
    let s7 := wirePendingEvents { s6 with currentComponentID := c.cid }
    let s8 := { s7 with currentComponentID := prev }
    let s9 := (r.2.comps.foldl mountRecursive (mountRecursive s8 c))
    (Except.ok (), s9, c)

/-- `Append` from `component_frontend.go`: like `Render` but the markup is
inserted after the parent's existing content and the parent's previous
children are not cleaned up. -/
def Append (s : DState) (parentID : String) (c0 : Comp) : Except String Unit × DState × Comp :=
  let p : Comp × DState :=
    if c0.cid = "" then
      let g := generateID s.idCounter
      (Comp.mk g.1 c0.kind, { s with idCounter := g.2 })
    else (c0, s)
  let c := p.1
  let r := serializeComp p.2 c c.cid
  let s2 := applyRCtx p.2 r.2
  match getElement s2.doc parentID with
  | none => (Except.error ("parent element not found: " ++ parentID), s2, c)
  | some parentH =>
    let s3 := { s2 with doc := docAppendChildren s2.doc parentH r.1 }
    let s4 := trackComponent s3 c
    let s5 := trackChildren s4 c.cid r.2.comps
    let prev := s5.currentComponentID
    let s6 := wirePendingEvents { s5 with currentComponentID := c.cid }
    let s7 := { s6 with currentComponentID := prev }
    let s8 := (r.2.comps.foldl mountRecursive (mountRecursive s7 c))
    (Except.ok (), s8, c)

/-- `Update` from `component_frontend.go`: re-resolve the tracked instance
for the id; clean up the previously tracked children and the component's
own listeners; re-serialize; replace the component's own node in the
document (failing when its node cannot be resolved); invalidate its cache
entry; re-track the children; re-wire events (the optional `OnUpdate` hook
of the Go code is absent on modelled components); mount the new children. -/
def Update (s : DState) (c0 : Comp) : Except String Unit × DState :=
  let id := c0.cid
  let c := match findIdxVal s.mountedComponents id with
    | some (_, comp) => comp
    | none => c0
  let s1 := cleanupChildren s id
  let s2 := cleanupListeners s1 id
  let r := serializeComp s2 c id
  let s3 := applyRCtx s2 r.2
  match docGetElementById s3.doc id with
  | none => (Except.error ("component element not found: " ++ id), s3)
  | some h =>
    let s4 := { s3 with doc := docSetOuter s3.doc h r.1 }
    let s5 := removeFromElementCache s4 id
    let s6 := trackChildren s5 id r.2.comps
    let prev := s6.currentComponentID
    let s7 := wirePendingEvents { s6 with currentComponentID := id }
    let s8 := { s7 with currentComponentID := prev }
    let s9 := r.2.comps.foldl mountRecursive s8
    (Except.ok (), s9)

/-- `unmount` from `component_frontend.go` (the operation behind the public
`Unmount`): recursively unmount (children first), remove the component's
node from the document when it resolves, invalidate its cache entry and
untrack it. -/
def Unmount (s : DState) (c : Comp) : DState :=
  let s1 := unmountRecursive s c
  let id := c.cid
  let s2 := match docGetElementById s1.doc id with
    | some h => { s1 with doc := docRemove s1.doc h }
    | none => s1
  let s3 := removeFromElementCache s2 id
  untrackComponent s3 id

/-! ## Concrete scenarios used by the claim theorems -/

/-- A document holding only the `body` root. -/
def initDoc : Doc := ⟨[DNode.mk 0 "body" []], 1⟩

/-- The driver state at process start: empty registries, no marker, zero
counters, a document holding only `body`. -/
def initState : DState := ⟨initDoc, [], [], [], "", [], [], [], 0, 0⟩

/-- An inner element (not a component) carrying a click binding and no id:
the serializer auto-generates its id. -/
def innerButton : Elem := .mk "button" "" [] [] [⟨"click", 7⟩] false []

/-- A child component whose view root carries the component's id and a
click binding. -/
def childY : Comp := .mk "y" (.view (.mk "div" "y" [] [] [⟨"click", 8⟩] false []))

/-- A component tree with an event on its root, an event-carrying inner
element, and a child component with its own event. -/
def compX : Comp :=
  .mk "x" (.view (.mk "div" "" [] [] [⟨"click", 5⟩] false
    [.elem innerButton, .comp childY]))

/-- The state after rendering `compX` into `body`. -/
def afterRenderX : DState := (Render initState "body" compX).2.1

/-- The state after rendering `compX` into `body` and unmounting it. -/
def afterUnmountX : DState := Unmount afterRenderX compX

/-- Child component `A` for the children-replacement scenario: view root
carries its id and a click binding. -/
def childA : Comp := .mk "a" (.view (.mk "div" "a" [] [] [⟨"click", 10⟩] false []))

/-- Child component `B` (the one dropped by the re-render). -/
def childB : Comp := .mk "b" (.view (.mk "div" "b" [] [] [⟨"click", 12⟩] false []))

/-- Child component `C`. -/
def childC : Comp := .mk "c" (.view (.mk "div" "c" [] [] [⟨"click", 11⟩] false []))

/-- The parent whose current render produces child ids `[a, c]`. -/
def parentP : Comp :=
  .mk "p" (.view (.mk "div" "p" [] [] [] false [.comp childA, .comp childC]))

/-- Document for the children-replacement scenario: `body` holding the
parent node with the three child nodes of the previous render. -/
def c2Doc : Doc :=
  ⟨[DNode.mk 0 "body" [DNode.mk 1 "p" [DNode.mk 2 "a" [], DNode.mk 3 "b" [], DNode.mk 4 "c" []]]], 5⟩

/-- Driver state after the parent's previous render produced child-id list
`[a, b, c]`: all four components tracked, each child owning its click
listener. -/
def c2State : DState :=
  ⟨c2Doc, [],
    [⟨"a::click", 2, 0⟩, ⟨"b::click", 3, 1⟩, ⟨"c::click", 4, 2⟩],
    [("a", ["a::click"]), ("b", ["b::click"]), ("c", ["c::click"])],
    "", [],
    [("p", parentP), ("a", childA), ("b", childB), ("c", childC)],
    [("p", ["a", "b", "c"])], 0, 3⟩

/-- The state after re-rendering the parent (whose new content produces
child ids `[a, c]`). -/
def c2After : DState := (Update c2State parentP).2

/-- Event-free child component for the cache-invalidation scenario. -/
def compA3 : Comp := .mk "a" (.view (.mk "div" "a" [] [] [] false []))

/-- Event-free parent component for the cache-invalidation scenario. -/
def compP3 : Comp := .mk "p" (.view (.mk "div" "" [] [] [] false [.comp compA3]))

/-- Cache scenario, step 1: render the parent into `body`. -/
def c3s1 : DState := (Render initState "body" compP3).2.1

/-- Cache scenario, step 2: a lookup of the child caches its node handle. -/
def c3s2 : DState := (Get c3s1 "a").1

/-- Cache scenario, step 3: a lookup of the parent caches its node
handle. -/
def c3s3 : DState := (Get c3s2 "p").1

/-- Cache scenario: state after `Update` of the parent. -/
def c3AfterUpdate : DState := (Update c3s3 compP3).2

/-- Cache scenario: state after `Unmount` of the parent. -/
def c3AfterUnmount : DState := Unmount c3s3 compP3

/-- A button with an explicit id and a click binding, serialized during a
render whose parent lookup fails. -/
def c9Btn : Elem := .mk "button" "btn" [] [] [⟨"click", 9⟩] false []

/-- A component with no id yet, wrapping the button. -/
def c9X : Comp := .mk "" (.view (.mk "div" "" [] [] [] false [.elem c9Btn]))

/-- The failed render against the unresolvable parent id `nope`. -/
def c9Fail : Except String Unit × DState × Comp := Render initState "nope" c9X

/-- The state after the successful retry of the same component into
`body`, starting from the failed call's state. -/
def c9Retry : Except String Unit × DState × Comp :=
  Render c9Fail.2.1 "body" c9Fail.2.2

/-! ## Spec-side definitions used in claim statements -/

/-- Value of a most-significant-first decimal digit list (spec-side, used
to prove the id renderer injective). -/
def decVal (l : List Nat) : Nat := l.foldl (fun a d => a * 10 + d) 0

/-- The open tag a serializer emits for an element: tag, id (if set),
classes (space-joined), attributes in insertion order.  Spec-side
description, compared against the serializers' output for void nodes. -/
def openTagHTML (tag eid : String) (cls : List String)
    (attrs : List (String × String)) : String :=
  "<" ++ tag
    ++ (if eid ≠ "" then " id='" ++ eid ++ "'" else "")
    ++ (if cls ≠ [] then " class='" ++ joinClasses cls ++ "'" else "")
    ++ attrsHTML attrs ++ ">"

/-- The listener-key list a state attributes to an id (empty when the
listener registry has no entry for it). -/
def keysOf (s : DState) (id : String) : List String :=
  ((findIdxVal s.componentListeners id).map Prod.snd).getD []

/-- The identifiers present in the mounted-components table. -/
def mountedIds (s : DState) : List String := s.mountedComponents.map Prod.fst

/-! ## Helper lemmas: swap-remove and linear scans -/

theorem swapRemove_perm {α : Type} :
    ∀ (l : List α) (i : Nat), i < l.length → (swapRemove l i).Perm (l.eraseIdx i) := by
  intro l
  induction l with
  | nil => intro i h; simp at h
  | cons x xs ih =>
    intro i h
    cases xs with
    | nil =>
      have hi : i = 0 := by simp at h; omega
      subst hi
      simp [swapRemove, List.eraseIdx]
    | cons y ys =>
      have hne : (y :: ys : List α) ≠ [] := by simp
      have hgl : (x :: y :: ys).getLast? = some ((y :: ys).getLast hne) := by
        rw [List.getLast?_cons_cons, List.getLast?_eq_getLast _ hne]
      cases i with
      | zero =>
        simp only [swapRemove, hgl, List.set]
        have hstep : ((y :: ys).getLast hne :: y :: ys).dropLast
            = (y :: ys).getLast hne :: (y :: ys).dropLast := rfl
        rw [hstep]
        have hperm : ((y :: ys).getLast hne :: (y :: ys).dropLast).Perm
            ((y :: ys).dropLast ++ [(y :: ys).getLast hne]) := by
          simpa using
            (@List.perm_append_comm _ [(y :: ys).getLast hne] ((y :: ys).dropLast))
        refine hperm.trans ?_
        rw [List.dropLast_append_getLast hne]
        simp [List.eraseIdx]
      | succ j =>
        have hj : j < (y :: ys).length := by simp at h ⊢; omega
        simp only [swapRemove, hgl, List.set_cons_succ]
        have hset : (y :: ys).set j ((y :: ys).getLast hne) ≠ [] := by
          intro hcon
          have := congrArg List.length hcon
          simp at this
        have hstep : (x :: (y :: ys).set j ((y :: ys).getLast hne)).dropLast
            = x :: ((y :: ys).set j ((y :: ys).getLast hne)).dropLast := by
          cases hq : (y :: ys).set j ((y :: ys).getLast hne) with
          | nil => exact absurd hq hset
          | cons a as => rfl
        rw [hstep]
        have ihy := ih j hj
        simp only [swapRemove, List.getLast?_eq_getLast _ hne] at ihy
        exact ihy.cons x

theorem swapRemove_subset {α : Type} (l : List α) (i : Nat) : swapRemove l i ⊆ l := by
  unfold swapRemove
  cases hgl : l.getLast? with
  | none => exact fun a ha => ha
  | some last =>
    intro a ha
    have ha2 : a ∈ l.set i last := (List.dropLast_sublist _).subset ha
    rcases List.mem_or_eq_of_mem_set ha2 with hmem | rfl
    · exact hmem
    · have hne : l ≠ [] := by intro hc; subst hc; simp at hgl
      rw [List.getLast?_eq_getLast _ hne] at hgl
      cases hgl
      exact List.getLast_mem hne

theorem countP_swapRemove_le {α : Type} (p : α → Bool) (l : List α) (i : Nat) :
    (swapRemove l i).countP p ≤ l.countP p := by
  by_cases h : i < l.length
  · rw [(swapRemove_perm l i h).countP_eq]
    exact (List.eraseIdx_sublist l i).countP_le p
  · unfold swapRemove
    cases hgl : l.getLast? with
    | none => exact le_rfl
    | some last =>
      show ((l.set i last).dropLast).countP p ≤ l.countP p
      rw [List.set_eq_of_length_le (by omega)]
      exact (List.dropLast_sublist l).countP_le p

theorem mem_eraseIdx_of_ne {α : Type} :
    ∀ (l : List α) (i : Nat) (h : i < l.length) (a : α),
      a ∈ l → a ≠ l.get ⟨i, h⟩ → a ∈ l.eraseIdx i := by
  intro l
  induction l with
  | nil => intro i h; simp at h
  | cons x xs ih =>
    intro i h a hmem hne
    cases i with
    | zero =>
      simp only [List.eraseIdx]
      rcases List.mem_cons.mp hmem with rfl | hm
      · exact absurd rfl hne
      · exact hm
    | succ j =>
      simp only [List.eraseIdx]
      rcases List.mem_cons.mp hmem with rfl | hm
      · exact List.mem_cons_self _ _
      · have hj : j < xs.length := by simp at h; omega
        exact List.mem_cons_of_mem _ (ih j hj a hm hne)

theorem mem_swapRemove_of_ne {α : Type} (l : List α) (i : Nat) (h : i < l.length)
    (a : α) (hmem : a ∈ l) (hne : a ≠ l.get ⟨i, h⟩) : a ∈ swapRemove l i :=
  (swapRemove_perm l i h).mem_iff.mpr (mem_eraseIdx_of_ne l i h a hmem hne)

theorem findIdxVal_none_iff {α : Type} :
    ∀ (l : List (String × α)) (id : String),
      findIdxVal l id = none ↔ ∀ p ∈ l, p.1 ≠ id := by
  intro l id
  induction l with
  | nil => simp [findIdxVal]
  | cons p rest ih =>
    by_cases hp : p.1 = id
    · simp [findIdxVal, hp]
    · simp [findIdxVal, hp, Option.map_eq_none, ih]

theorem findIdxVal_some_mem {α : Type} :
    ∀ (l : List (String × α)) (id : String) (i : Nat) (v : α),
      findIdxVal l id = some (i, v) → (id, v) ∈ l := by
  intro l
  induction l with
  | nil => intro id i v h; simp [findIdxVal] at h
  | cons p rest ih =>
    intro id i v h
    by_cases hp : p.1 = id
    · simp only [findIdxVal, if_pos hp, Option.some.injEq, Prod.mk.injEq] at h
      obtain ⟨rfl, rfl⟩ := h
      subst hp
      exact List.mem_cons_self _ _
    · simp only [findIdxVal, if_neg hp, Option.map_eq_some'] at h
      rcases h with ⟨⟨j, w⟩, hj, hq⟩
      simp only [Prod.mk.injEq] at hq
      obtain ⟨rfl, rfl⟩ := hq
      exact List.mem_cons_of_mem _ (ih id j w hj)

theorem findIdxVal_set_same {α : Type} :
    ∀ (l : List (String × α)) (id : String) (i : Nat) (v v' : α),
      findIdxVal l id = some (i, v) →
        findIdxVal (l.set i (id, v')) id = some (i, v') := by
  intro l
  induction l with
  | nil => intro id i v v' h; simp [findIdxVal] at h
  | cons p rest ih =>
    intro id i v v' h
    by_cases hp : p.1 = id
    · simp only [findIdxVal, if_pos hp, Option.some.injEq, Prod.mk.injEq] at h
      obtain ⟨rfl, rfl⟩ := h
      simp [List.set, findIdxVal]
    · simp only [findIdxVal, if_neg hp, Option.map_eq_some'] at h
      rcases h with ⟨⟨j, w⟩, hj, hq⟩
      simp only [Prod.mk.injEq] at hq
      obtain ⟨rfl, rfl⟩ := hq
      rw [List.set_cons_succ]
      simp only [findIdxVal, if_neg hp]
      rw [ih id j w v' hj]
      rfl

theorem findIdxVal_append_of_none {α : Type} :
    ∀ (l : List (String × α)) (id : String) (x : String × α),
      findIdxVal l id = none → x.1 = id →
        findIdxVal (l ++ [x]) id = some (l.length, x.2) := by
  intro l
  induction l with
  | nil =>
    intro id x _ hx
    simp [findIdxVal, hx]
  | cons p rest ih =>
    intro id x h hx
    by_cases hp : p.1 = id
    · simp [findIdxVal, hp] at h
    · simp only [findIdxVal, if_neg hp, Option.map_eq_none'] at h
      show (findIdxVal (p :: (rest ++ [x])) id) = some (rest.length + 1, x.2)
      simp only [findIdxVal, if_neg hp]
      rw [ih id x h hx]
      rfl

/-! ## Helper lemmas: the decimal id renderer -/

theorem decDigitsGo_ne_nil (fuel n : Nat) : decDigitsGo fuel n ≠ [] := by
  cases fuel with
  | zero => simp [decDigitsGo]
  | succ f => simp only [decDigitsGo]; split <;> simp

theorem decRepr_ne_empty (n : Nat) : decRepr n ≠ "" := by
  intro h
  apply decDigitsGo_ne_nil n n
  have h2 := congrArg String.data h
  simpa [decRepr] using h2

theorem decVal_append_digit (l : List Nat) (d : Nat) :
    decVal (l ++ [d]) = decVal l * 10 + d := by
  simp [decVal, List.foldl_append]

theorem decVal_decDigitsGo : ∀ fuel n, n ≤ fuel → decVal (decDigitsGo fuel n) = n := by
  intro fuel
  induction fuel with
  | zero =>
    intro n hn
    have : n = 0 := by omega
    subst this
    simp [decDigitsGo, decVal]
  | succ f ih =>
    intro n hn
    by_cases h10 : n < 10
    · simp [decDigitsGo, h10, decVal]
    · have hpos : 0 < n := by omega
      have hdiv : n / 10 < n := Nat.div_lt_self hpos (by omega)
      simp only [decDigitsGo, if_neg h10]
      rw [decVal_append_digit, ih (n / 10) (by omega)]
      omega

theorem decDigitsGo_lt : ∀ fuel n, n ≤ fuel → ∀ d ∈ decDigitsGo fuel n, d < 10 := by
  intro fuel
  induction fuel with
  | zero =>
    intro n hn d hd
    have : n = 0 := by omega
    subst this
    simp [decDigitsGo] at hd
    omega
  | succ f ih =>
    intro n hn d hd
    by_cases h10 : n < 10
    · simp [decDigitsGo, h10] at hd
      omega
    · have hpos : 0 < n := by omega
      have hdiv : n / 10 < n := Nat.div_lt_self hpos (by omega)
      simp only [decDigitsGo, if_neg h10, List.mem_append, List.mem_singleton] at hd
      rcases hd with hd | hd
      · exact ih (n / 10) (by omega) d hd
      · subst hd; exact Nat.mod_lt n (by omega)

theorem digitChar_inj : ∀ d1 < 10, ∀ d2 < 10, digitChar d1 = digitChar d2 → d1 = d2 := by
  decide

theorem map_digitChar_inj :
    ∀ l1 l2 : List Nat, (∀ d ∈ l1, d < 10) → (∀ d ∈ l2, d < 10) →
      l1.map digitChar = l2.map digitChar → l1 = l2 := by
  intro l1
  induction l1 with
  | nil =>
    intro l2 _ _ h
    cases l2 with
    | nil => rfl
    | cons b t2 => simp at h
  | cons a t ih =>
    intro l2 h1 h2 h
    cases l2 with
    | nil => simp at h
    | cons b t2 =>
      simp only [List.map_cons, List.cons.injEq] at h
      have hab := digitChar_inj a (h1 a (List.mem_cons_self a t)) b
        (h2 b (List.mem_cons_self b t2)) h.1
      subst hab
      rw [ih t2 (fun d hd => h1 d (List.mem_cons_of_mem _ hd))
        (fun d hd => h2 d (List.mem_cons_of_mem _ hd)) h.2]

theorem decRepr_inj {m n : Nat} (h : decRepr m = decRepr n) : m = n := by
  have hd : (decDigitsGo m m).map digitChar = (decDigitsGo n n).map digitChar := by
    simpa using congrArg String.data h
  have hl : decDigitsGo m m = decDigitsGo n n :=
    map_digitChar_inj _ _ (decDigitsGo_lt m m le_rfl) (decDigitsGo_lt n n le_rfl) hd
  have hv := congrArg decVal hl
  rwa [decVal_decDigitsGo m m le_rfl, decVal_decDigitsGo n n le_rfl] at hv

theorem one_lt_uint64Mod : 1 < uint64Mod := by norm_num [uint64Mod]

theorem counterAfter_mod (n : Nat) : counterAfter n = n % uint64Mod := by
  induction n with
  | zero => simp [counterAfter]
  | succ k ih =>
    simp only [counterAfter, generateID, ih]
    conv_rhs => rw [Nat.add_mod]
    rw [Nat.mod_eq_of_lt one_lt_uint64Mod]

theorem idOfCall_eq (k : Nat) (hk : 1 ≤ k) : idOfCall k = decRepr (k % uint64Mod) := by
  unfold idOfCall generateID
  simp only [counterAfter_mod]
  congr 1
  conv_rhs => rw [show k = (k - 1) + 1 by omega]
  rw [Nat.add_mod (k - 1) 1, Nat.mod_eq_of_lt one_lt_uint64Mod]

/-! ## Helper lemmas: listener cleanup preserves unrelated callbacks -/

theorem removeKeyGo_mem (key : String) :
    ∀ (fuel : Nat) (l : List EventFunc) (i : Nat) (ef : EventFunc),
      ef ∈ l → ef.key ≠ key → ef ∈ removeKeyGo key fuel l i := by
  intro fuel
  induction fuel with
  | zero => intro l i ef hm _; exact hm
  | succ f ih =>
    intro l i ef hm hk
    simp only [removeKeyGo]
    split
    · rename_i hlen
      split
      · rename_i hkey
        refine ih _ _ ef ?_ hk
        refine mem_swapRemove_of_ne l i hlen ef hm ?_
        intro hcon
        exact hk (by rw [hcon]; exact hkey)
      · exact ih _ _ ef hm hk
    · exact hm

theorem foldl_removeKeys_mem :
    ∀ (keys : List String) (l : List EventFunc) (ef : EventFunc),
      ef ∈ l → (∀ k ∈ keys, ef.key ≠ k) →
        ef ∈ keys.foldl (fun l key => removeKeyGo key (l.length + 1) l 0) l := by
  intro keys
  induction keys with
  | nil => intro l ef hm _; exact hm
  | cons k rest ih =>
    intro l ef hm hks
    simp only [List.foldl_cons]
    exact ih _ ef (removeKeyGo_mem k _ l 0 ef hm (hks k (List.mem_cons_self _ _)))
      (fun k' hk' => hks k' (List.mem_cons_of_mem _ hk'))

/-! ## Helper lemmas: cleanup touches neither the document nor adds mounted entries -/

theorem cleanupListeners_doc (s : DState) (id : String) :
    (cleanupListeners s id).doc = s.doc := by
  unfold cleanupListeners; split <;> rfl

theorem cleanupListeners_mounted (s : DState) (id : String) :
    (cleanupListeners s id).mountedComponents = s.mountedComponents := by
  unfold cleanupListeners; split <;> rfl

theorem popChildren_doc (s : DState) (pid : String) :
    (popChildren s pid).1.doc = s.doc := by
  unfold popChildren; split <;> rfl

theorem popChildren_mounted (s : DState) (pid : String) :
    (popChildren s pid).1.mountedComponents = s.mountedComponents := by
  unfold popChildren; split <;> rfl

theorem popMounted_doc (s : DState) (id : String) :
    (popMounted s id).1.doc = s.doc := by
  unfold popMounted; split <;> rfl

theorem popMounted_mounted_subset (s : DState) (id : String) :
    mountedIds (popMounted s id).1 ⊆ mountedIds s := by
  unfold popMounted mountedIds
  split
  · rename_i i c
    dsimp only
    exact List.map_subset _ (swapRemove_subset _ _)
  · exact fun a ha => ha

theorem untrackComponent_doc (s : DState) (id : String) :
    (untrackComponent s id).doc = s.doc := by
  unfold untrackComponent; split <;> rfl

theorem untrackComponent_mounted_subset (s : DState) (id : String) :
    mountedIds (untrackComponent s id) ⊆ mountedIds s := by
  unfold untrackComponent mountedIds
  split
  · rename_i i c
    dsimp only
    exact List.map_subset _ (swapRemove_subset _ _)
  · exact fun a ha => ha

theorem unmountF_doc : ∀ fuel : Nat,
    (∀ s c, (unmountRecursiveF fuel s c).doc = s.doc)
  ∧ (∀ s ids, (unmountChildrenF fuel s ids).doc = s.doc) := by
  intro fuel
  induction fuel with
  | zero => exact ⟨fun _ _ => rfl, fun _ _ => rfl⟩
  | succ f ih =>
    constructor
    · intro s c
      simp only [unmountRecursiveF]
      rw [untrackComponent_doc, cleanupListeners_doc, ih.2, popChildren_doc]
    · intro s ids
      cases ids with
      | nil => rfl
      | cons id rest =>
        simp only [unmountChildrenF]
        split
        · rw [ih.2, ih.1, popMounted_doc]
        · rw [ih.2, cleanupListeners_doc, popMounted_doc]

theorem unmountF_mounted : ∀ fuel : Nat,
    (∀ s c, mountedIds (unmountRecursiveF fuel s c) ⊆ mountedIds s)
  ∧ (∀ s ids, mountedIds (unmountChildrenF fuel s ids) ⊆ mountedIds s) := by
  intro fuel
  induction fuel with
  | zero => exact ⟨fun _ _ => fun a ha => ha, fun _ _ => fun a ha => ha⟩
  | succ f ih =>
    constructor
    · intro s c
      simp only [unmountRecursiveF]
      intro a ha
      have h1 := untrackComponent_mounted_subset
        (cleanupListeners (unmountChildrenF f (popChildren s c.cid).1 (popChildren s c.cid).2)
          c.cid) c.cid ha
      rw [show mountedIds (cleanupListeners
          (unmountChildrenF f (popChildren s c.cid).1 (popChildren s c.cid).2) c.cid)
        = mountedIds (unmountChildrenF f (popChildren s c.cid).1 (popChildren s c.cid).2) from
          congrArg (List.map Prod.fst) (cleanupListeners_mounted _ _)] at h1
      have h2 := ih.2 (popChildren s c.cid).1 (popChildren s c.cid).2 h1
      rw [show mountedIds (popChildren s c.cid).1 = mountedIds s from
        congrArg (List.map Prod.fst) (popChildren_mounted _ _)] at h2
      exact h2
    · intro s ids
      cases ids with
      | nil => exact fun a ha => ha
      | cons id rest =>
        simp only [unmountChildrenF]
        split
        · intro a ha
          exact popMounted_mounted_subset s id (ih.1 _ _ (ih.2 _ _ ha))
        · intro a ha
          have h1 := ih.2 _ _ ha
          rw [show mountedIds (cleanupListeners (popMounted s id).1 id)
            = mountedIds (popMounted s id).1 from
              congrArg (List.map Prod.fst) (cleanupListeners_mounted _ _)] at h1
          exact popMounted_mounted_subset s id h1

theorem cleanupChildren_doc (s : DState) (pid : String) :
    (cleanupChildren s pid).doc = s.doc := by
  unfold cleanupChildren
  rw [(unmountF_doc _).2, popChildren_doc]

theorem cleanupChildren_mounted_subset (s : DState) (pid : String) :
    mountedIds (cleanupChildren s pid) ⊆ mountedIds s := by
  unfold cleanupChildren
  intro a ha
  have h1 := (unmountF_mounted _).2 _ _ ha
  rw [show mountedIds (popChildren s pid).1 = mountedIds s from
    congrArg (List.map Prod.fst) (popChildren_mounted _ _)] at h1
  exact h1

/-! ## Claim C4 -/

/-- C4: a `Render` or `Append` whose target id does not resolve in the
document returns the parent-not-found error and leaves the
mounted-components table unchanged (the component is not registered as
tracked), and an `Update` whose component node does not resolve returns
the component-not-found error and adds no mounted entry (the table's ids
afterwards are among the ids before the call). -/
theorem missing_target_errors (s : DState) (pid : String) (c : Comp)
    (hR : getElement s.doc pid = none) :
    ((Render s pid c).1 = Except.error ("parent element not found: " ++ pid)
      ∧ (Render s pid c).2.1.mountedComponents = s.mountedComponents)
  ∧ ((Append s pid c).1 = Except.error ("parent element not found: " ++ pid)
      ∧ (Append s pid c).2.1.mountedComponents = s.mountedComponents)
  ∧ (∀ c' : Comp, docGetElementById s.doc c'.cid = none →
      (Update s c').1 = Except.error ("component element not found: " ++ c'.cid)
      ∧ ∀ id ∈ mountedIds (Update s c').2, id ∈ mountedIds s) := by
  refine ⟨?_, ?_, ?_⟩
  · unfold Render
    by_cases hcid : c.cid = ""
    · rw [if_pos hcid]
      dsimp only [applyRCtx]
      rw [hR]
      exact ⟨rfl, rfl⟩
    · rw [if_neg hcid]
      dsimp only [applyRCtx]
      rw [hR]
      exact ⟨rfl, rfl⟩
  · unfold Append
    by_cases hcid : c.cid = ""
    · rw [if_pos hcid]
      dsimp only [applyRCtx]
      rw [hR]
      exact ⟨rfl, rfl⟩
    · rw [if_neg hcid]
      dsimp only [applyRCtx]
      rw [hR]
      exact ⟨rfl, rfl⟩
  · intro c' hU
    unfold Update
    dsimp only [applyRCtx]
    rw [cleanupListeners_doc, cleanupChildren_doc, hU]
    refine ⟨rfl, ?_⟩
    intro id hid
    have hid2 : id ∈ mountedIds (cleanupListeners (cleanupChildren s c'.cid) c'.cid) := hid
    have hid3 : id ∈ mountedIds (cleanupChildren s c'.cid) := by
      unfold mountedIds at hid2 ⊢
      rw [← cleanupListeners_mounted (cleanupChildren s c'.cid) c'.cid]
      exact hid2
    exact cleanupChildren_mounted_subset s c'.cid hid3

/-- C4 witness: the three operations applied against the initial document
(holding only `body`), with targets `nope` and `q` that do not resolve. -/
theorem missing_target_errors_witness :
    getElement initState.doc "nope" = none
  ∧ docGetElementById initState.doc "q" = none
  ∧ (Render initState "nope" compX).1 = Except.error "parent element not found: nope"
  ∧ (Append initState "nope" compX).1 = Except.error "parent element not found: nope"
  ∧ (Update initState (Comp.mk "q" (CKind.view (Elem.mk "div" "q" [] [] [] false [])))).1
      = Except.error "component element not found: q" :=
  ⟨by decide, by decide,
   (missing_target_errors initState "nope" compX (by decide)).1.1,
   (missing_target_errors initState "nope" compX (by decide)).2.1.1,
   ((missing_target_errors initState "nope" compX (by decide)).2.2
     (Comp.mk "q" (CKind.view (Elem.mk "div" "q" [] [] [] false []))) (by decide)).1⟩

/-! ## Claim C5 -/

/-- C5: `On` records the callback in the event-function store under the
event key `id::eventName`; the key is appended to the listener list of the
component id currently marked as being mounted (creating the entry when
absent); and when no component is marked, the callback is still stored but
attributed to no listener list, so — as long as the key is owned by no
component — no `cleanupListeners` call removes it. -/
theorem on_records_listener (s : DState) (eid : String) (v : Nat)
    (name : String) (h : Nat) :
    (EventFunc.mk (eid ++ "::" ++ name) v s.nextFn ∈ (On s eid v name h).eventFuncs)
  ∧ (s.currentComponentID ≠ "" →
      keysOf (On s eid v name h) s.currentComponentID
        = keysOf s s.currentComponentID ++ [eid ++ "::" ++ name])
  ∧ (s.currentComponentID = "" →
      (On s eid v name h).componentListeners = s.componentListeners
      ∧ ((∀ e ∈ s.componentListeners, (eid ++ "::" ++ name) ∉ e.2) →
          ∀ id, EventFunc.mk (eid ++ "::" ++ name) v s.nextFn
            ∈ (cleanupListeners (On s eid v name h) id).eventFuncs)) := by
  refine ⟨?_, ?_, ?_⟩
  · unfold On
    dsimp only
    split
    · split <;> exact List.mem_append_right _ (List.mem_cons_self _ _)
    · exact List.mem_append_right _ (List.mem_cons_self _ _)
  · intro hm
    unfold On
    dsimp only
    rw [if_pos hm]
    split
    · rename_i i keys hf
      unfold keysOf
      dsimp only
      rw [findIdxVal_set_same _ _ i keys _ hf, hf]
      rfl
    · rename_i hf
      unfold keysOf
      dsimp only
      rw [findIdxVal_append_of_none _ _ _ hf rfl, hf]
      rfl
  · intro hm
    have hcond : ¬s.currentComponentID ≠ "" := by simpa using hm
    constructor
    · unfold On
      dsimp only
      rw [if_neg hcond]
    · intro hnodup id
      unfold On
      dsimp only
      rw [if_neg hcond]
      unfold cleanupListeners
      dsimp only
      split
      · exact List.mem_append_right _ (List.mem_cons_self _ _)
      · rename_i i keys hf
        have hentry : (id, keys) ∈ s.componentListeners :=
          findIdxVal_some_mem _ _ i keys hf
        have hknot : ∀ k ∈ keys,
            (EventFunc.mk (eid ++ "::" ++ name) v s.nextFn).key ≠ k := by
          intro k hk hcon
          have hcon2 : eid ++ "::" ++ name = k := hcon
          exact (hnodup (id, keys) hentry) (by rw [hcon2]; exact hk)
        exact foldl_removeKeys_mem keys _ _
          (List.mem_append_right _ (List.mem_cons_self _ _)) hknot

/-- C5 witness: the attributed case at a state with marker `x`, and the
orphan case at the initial state (empty marker, no listener entries). -/
theorem on_records_listener_witness :
    (({ initState with currentComponentID := "x" } : DState).currentComponentID ≠ ""
      ∧ keysOf (On { initState with currentComponentID := "x" } "e" 5 "click" 9) "x"
          = keysOf { initState with currentComponentID := "x" } "x" ++ ["e::click"])
  ∧ ((initState.currentComponentID = "")
      ∧ (∀ e ∈ initState.componentListeners, ("e::click" : String) ∉ e.2)
      ∧ EventFunc.mk "e::click" 5 0
          ∈ (cleanupListeners (On initState "e" 5 "click" 9) "q").eventFuncs) :=
  ⟨⟨by decide,
    (on_records_listener { initState with currentComponentID := "x" } "e" 5 "click" 9).2.1
      (by decide)⟩,
   ⟨rfl, by decide,
    ((on_records_listener initState "e" 5 "click" 9).2.2 rfl).2 (by decide) "q"⟩⟩

/-! ## Helper lemmas: the renderer only appends to the pending-event queue -/

mutual
theorem renderE_pending_mono : ∀ (e : Elem) (ctx : RCtx) (q : Pending),
    q ∈ ctx.pending → q ∈ (renderToHTML e ctx).ctx.pending
  | .mk tag eid cls attrs evs void kids, ctx, q => by
    intro hq
    cases void with
    | true =>
      by_cases hc : 0 < evs.length ∧ eid = ""
      · simp only [renderToHTML]
        try dsimp only
        rw [if_pos hc]
        try dsimp only
        exact List.mem_append_left _ hq
      · simp only [renderToHTML]
        try dsimp only
        rw [if_neg hc]
        try dsimp only
        exact List.mem_append_left _ hq
    | false =>
      by_cases hc : 0 < evs.length ∧ eid = ""
      · simp only [renderToHTML]
        try dsimp only
        rw [if_pos hc]
        try dsimp only
        exact renderL_pending_mono kids _ q (List.mem_append_left _ hq)
      · simp only [renderToHTML]
        try dsimp only
        rw [if_neg hc]
        try dsimp only
        exact renderL_pending_mono kids _ q (List.mem_append_left _ hq)

theorem renderC_pending_mono : ∀ (ch : Child) (ctx : RCtx) (q : Pending),
    q ∈ ctx.pending → q ∈ (renderChild ch ctx).ctx.pending
  | .elem e, ctx, q => fun hq => renderE_pending_mono e ctx q hq
  | .text t, ctx, q => fun hq => hq
  | .comp (.mk cid kind), ctx, q => by
    intro hq
    cases kind with
    | view root =>
      by_cases hcid : cid = ""
      · simp only [renderChild]
        try dsimp only
        rw [if_pos hcid]
        try dsimp only
        exact renderE_pending_mono root _ q hq
      · simp only [renderChild]
        try dsimp only
        rw [if_neg hcid]
        try dsimp only
        exact renderE_pending_mono root _ q hq
    | raw h =>
      by_cases hcid : cid = ""
      · simp only [renderChild]
        try dsimp only
        rw [if_pos hcid]
        exact hq
      · simp only [renderChild]
        try dsimp only
        rw [if_neg hcid]
        exact hq

theorem renderL_pending_mono : ∀ (kids : List Child) (ctx : RCtx) (q : Pending),
    q ∈ ctx.pending → q ∈ (renderChildren kids ctx).ctx.pending
  | [], _, _ => fun hq => hq
  | ch :: rest, ctx, q => fun hq =>
    renderL_pending_mono rest _ q (renderC_pending_mono ch ctx q hq)
end

/-! ## Helper lemmas: every serialized event-carrying node gets a non-empty
id whose pending entries carry exactly that id -/

mutual
theorem renderE_auto_ids : ∀ (e : Elem) (ctx : RCtx),
    ∀ u ∈ elemsOfE (renderToHTML e ctx).tree, u.events ≠ [] →
      u.eid ≠ "" ∧ ∀ ev ∈ u.events,
        Pending.mk u.eid ev.name ev.handler ∈ (renderToHTML e ctx).ctx.pending
  | .mk tag eid cls attrs evs void kids, ctx => by
    intro u hu hev
    cases void with
    | true =>
      by_cases hc : 0 < evs.length ∧ eid = ""
      · have htree : (renderToHTML (Elem.mk tag eid cls attrs evs true kids) ctx).tree
            = Elem.mk tag (generateID ctx.idCounter).1 cls attrs evs true kids := by
          simp [renderToHTML, hc]
        have hpend : (renderToHTML (Elem.mk tag eid cls attrs evs true kids) ctx).ctx.pending
            = ctx.pending ++ evs.map (fun ev =>
                ⟨(generateID ctx.idCounter).1, ev.name, ev.handler⟩) := by
          simp [renderToHTML, hc]
        rw [htree] at hu
        rw [hpend]
        simp [elemsOfE] at hu
        subst hu
        simp only [Elem.eid, Elem.events] at hev ⊢
        refine ⟨by simp only [generateID]; exact decRepr_ne_empty _, fun ev hev2 => ?_⟩
        exact List.mem_append_right _ (List.mem_map_of_mem _ hev2)
      · have htree : (renderToHTML (Elem.mk tag eid cls attrs evs true kids) ctx).tree
            = Elem.mk tag eid cls attrs evs true kids := by
          simp [renderToHTML, hc]
        have hpend : (renderToHTML (Elem.mk tag eid cls attrs evs true kids) ctx).ctx.pending
            = ctx.pending ++ evs.map (fun ev => ⟨eid, ev.name, ev.handler⟩) := by
          simp [renderToHTML, hc]
        rw [htree] at hu
        rw [hpend]
        simp [elemsOfE] at hu
        subst hu
        simp only [Elem.eid, Elem.events] at hev ⊢
        have hlen : 0 < evs.length := List.length_pos.mpr hev
        refine ⟨fun hcon => hc ⟨hlen, hcon⟩, fun ev hev2 => ?_⟩
        exact List.mem_append_right _ (List.mem_map_of_mem _ hev2)
    | false =>
      by_cases hc : 0 < evs.length ∧ eid = ""
      · have htree : (renderToHTML (Elem.mk tag eid cls attrs evs false kids) ctx).tree
            = Elem.mk tag (generateID ctx.idCounter).1 cls attrs evs false
                (renderChildren kids ⟨(generateID ctx.idCounter).2,
                  ctx.pending ++ evs.map (fun ev =>
                    ⟨(generateID ctx.idCounter).1, ev.name, ev.handler⟩),
                  ctx.comps⟩).children := by
          simp [renderToHTML, hc]
        have hctx : (renderToHTML (Elem.mk tag eid cls attrs evs false kids) ctx).ctx
            = (renderChildren kids ⟨(generateID ctx.idCounter).2,
                ctx.pending ++ evs.map (fun ev =>
                  ⟨(generateID ctx.idCounter).1, ev.name, ev.handler⟩),
                ctx.comps⟩).ctx := by
          simp [renderToHTML, hc]
        rw [htree] at hu
        rw [hctx]
        simp [elemsOfE] at hu
        rcases hu with hu | hu
        · subst hu
          simp only [Elem.eid, Elem.events] at hev ⊢
          refine ⟨by simp only [generateID]; exact decRepr_ne_empty _, fun ev hev2 => ?_⟩
          refine renderL_pending_mono kids _ _ ?_
          exact List.mem_append_right _ (List.mem_map_of_mem _ hev2)
        · have hu2 : u ∈ elemsOfKids (renderChildren kids ⟨(generateID ctx.idCounter).2,
              ctx.pending ++ evs.map (fun ev =>
                ⟨(generateID ctx.idCounter).1, ev.name, ev.handler⟩),
              ctx.comps⟩).children := by
            simpa using hu
          exact renderL_auto_ids kids _ u hu2 hev
      · have htree : (renderToHTML (Elem.mk tag eid cls attrs evs false kids) ctx).tree
            = Elem.mk tag eid cls attrs evs false
                (renderChildren kids ⟨ctx.idCounter,
                  ctx.pending ++ evs.map (fun ev => ⟨eid, ev.name, ev.handler⟩),
                  ctx.comps⟩).children := by
          simp [renderToHTML, hc]
        have hctx : (renderToHTML (Elem.mk tag eid cls attrs evs false kids) ctx).ctx
            = (renderChildren kids ⟨ctx.idCounter,
                ctx.pending ++ evs.map (fun ev => ⟨eid, ev.name, ev.handler⟩),
                ctx.comps⟩).ctx := by
          simp [renderToHTML, hc]
        rw [htree] at hu
        rw [hctx]
        simp [elemsOfE] at hu
        rcases hu with hu | hu
        · subst hu
          simp only [Elem.eid, Elem.events] at hev ⊢
          have hlen : 0 < evs.length := List.length_pos.mpr hev
          refine ⟨fun hcon => hc ⟨hlen, hcon⟩, fun ev hev2 => ?_⟩
          refine renderL_pending_mono kids _ _ ?_
          exact List.mem_append_right _ (List.mem_map_of_mem _ hev2)
        · have hu2 : u ∈ elemsOfKids (renderChildren kids ⟨ctx.idCounter,
              ctx.pending ++ evs.map (fun ev => ⟨eid, ev.name, ev.handler⟩),
              ctx.comps⟩).children := by
            simpa using hu
          exact renderL_auto_ids kids _ u hu2 hev

theorem renderC_auto_ids : ∀ (ch : Child) (ctx : RCtx),
    ∀ u ∈ elemsOfC (renderChild ch ctx).child, u.events ≠ [] →
      u.eid ≠ "" ∧ ∀ ev ∈ u.events,
        Pending.mk u.eid ev.name ev.handler ∈ (renderChild ch ctx).ctx.pending
  | .elem e, ctx => by
    intro u hu hev
    simp only [renderChild] at hu ⊢
    exact renderE_auto_ids e ctx u hu hev
  | .text t, ctx => by
    intro u hu hev
    simp only [renderChild, elemsOfC] at hu
    cases hu
  | .comp (.mk cid kind), ctx => by
    intro u hu hev
    exfalso
    cases kind with
    | view root =>
      by_cases hcid : cid = ""
      · have hchild : (renderChild (Child.comp (Comp.mk cid (CKind.view root))) ctx).child
            = Child.comp (Comp.mk (generateID ctx.idCounter).1 (CKind.view root)) := by
          simp [renderChild, hcid]
        rw [hchild] at hu
        simp [elemsOfC] at hu
      · have hchild : (renderChild (Child.comp (Comp.mk cid (CKind.view root))) ctx).child
            = Child.comp (Comp.mk cid (CKind.view root)) := by
          simp [renderChild, hcid]
        rw [hchild] at hu
        simp [elemsOfC] at hu
    | raw h =>
      by_cases hcid : cid = ""
      · have hchild : (renderChild (Child.comp (Comp.mk cid (CKind.raw h))) ctx).child
            = Child.comp (Comp.mk (generateID ctx.idCounter).1 (CKind.raw h)) := by
          simp [renderChild, hcid]
        rw [hchild] at hu
        simp [elemsOfC] at hu
      · have hchild : (renderChild (Child.comp (Comp.mk cid (CKind.raw h))) ctx).child
            = Child.comp (Comp.mk cid (CKind.raw h)) := by
          simp [renderChild, hcid]
        rw [hchild] at hu
        simp [elemsOfC] at hu

theorem renderL_auto_ids : ∀ (kids : List Child) (ctx : RCtx),
    ∀ u ∈ elemsOfKids (renderChildren kids ctx).children, u.events ≠ [] →
      u.eid ≠ "" ∧ ∀ ev ∈ u.events,
        Pending.mk u.eid ev.name ev.handler ∈ (renderChildren kids ctx).ctx.pending
  | [], ctx => by
    intro u hu hev
    simp only [renderChildren, elemsOfKids] at hu
    cases hu
  | ch :: rest, ctx => by
    intro u hu hev
    simp only [renderChildren] at hu ⊢
    simp only [elemsOfKids, List.mem_append] at hu
    rcases hu with hu | hu
    · have h1 := renderC_auto_ids ch ctx u hu hev
      exact ⟨h1.1, fun ev hev2 => renderL_pending_mono rest _ _ (h1.2 ev hev2)⟩
    · exact renderL_auto_ids rest _ u hu hev
end

/-! ## Claim C6 -/

/-- C6: every element node the serializer visits that carries at least one
event binding ends up with a non-empty id in the serialized output (the
global generator's id when the node had none), and every pending-event
entry produced for that node's bindings carries exactly that id. -/
theorem auto_id_assignment (e : Elem) (ctx : RCtx) :
    ∀ u ∈ elemsOfE (renderToHTML e ctx).tree, u.events ≠ [] →
      u.eid ≠ "" ∧ ∀ ev ∈ u.events,
        Pending.mk u.eid ev.name ev.handler ∈ (renderToHTML e ctx).ctx.pending :=
  renderE_auto_ids e ctx

/-- C6 witness: the id-less button with a click binding, serialized from a
fresh state, appears in the output with the generated id `1` and its
pending entry carries that id. -/
theorem auto_id_assignment_witness :
    (Elem.mk "button" "1" [] [] [⟨"click", 7⟩] false []
        ∈ elemsOfE (renderToHTML innerButton ⟨0, [], []⟩).tree)
  ∧ ((Elem.mk "button" "1" [] [] [⟨"click", 7⟩] false [] : Elem).events ≠ [])
  ∧ ((Elem.mk "button" "1" [] [] [⟨"click", 7⟩] false [] : Elem).eid ≠ ""
      ∧ Pending.mk "1" "click" 7 ∈ (renderToHTML innerButton ⟨0, [], []⟩).ctx.pending) :=
  ⟨List.mem_cons_self _ _, by decide,
   (auto_id_assignment innerButton ⟨0, [], []⟩
      (Elem.mk "button" "1" [] [] [⟨"click", 7⟩] false [])
      (List.mem_cons_self _ _) (by decide)).1,
   (auto_id_assignment innerButton ⟨0, [], []⟩
      (Elem.mk "button" "1" [] [] [⟨"click", 7⟩] false [])
      (List.mem_cons_self _ _) (by decide)).2 ⟨"click", 7⟩ (by decide)⟩

/-! ## Claim C7 -/

/-- C7: `trackComponent` is idempotent — if the mounted-components table
has at most one entry per identifier, then tracking a component twice
leaves exactly one entry for its id — and neither `trackComponent` nor
`untrackComponent` ever produces two entries with the same identifier. -/
theorem trackComponent_idempotent (s : DState) (c : Comp)
    (hinv : ∀ id, s.mountedComponents.countP (fun p => p.1 == id) ≤ 1) :
    ((trackComponent (trackComponent s c) c).mountedComponents.countP
        (fun p => p.1 == c.cid) = 1)
  ∧ (∀ id, (trackComponent s c).mountedComponents.countP (fun p => p.1 == id) ≤ 1)
  ∧ (∀ id' id,
      (untrackComponent s id').mountedComponents.countP (fun p => p.1 == id) ≤ 1) := by
  have huntrack : ∀ id' id,
      (untrackComponent s id').mountedComponents.countP (fun p => p.1 == id) ≤ 1 := by
    intro id' id
    unfold untrackComponent
    cases hf : findIdxVal s.mountedComponents id' with
    | none => exact hinv id
    | some q =>
      exact le_trans (countP_swapRemove_le _ _ _) (hinv id)
  cases hf : findIdxVal s.mountedComponents c.cid with
  | some q =>
    have htrack : trackComponent s c = s := by
      unfold trackComponent; rw [hf]
    have hmem : (c.cid, q.2) ∈ s.mountedComponents :=
      findIdxVal_some_mem _ _ q.1 q.2 hf
    have hpos : 0 < s.mountedComponents.countP (fun p => p.1 == c.cid) :=
      List.countP_pos_iff.mpr ⟨(c.cid, q.2), hmem, by simp⟩
    refine ⟨?_, ?_, huntrack⟩
    · rw [htrack, htrack]
      have := hinv c.cid
      omega
    · intro id
      rw [htrack]
      exact hinv id
  | none =>
    have htrack : trackComponent s c
        = { s with mountedComponents := s.mountedComponents ++ [(c.cid, c)] } := by
      unfold trackComponent; rw [hf]
    have hzero : s.mountedComponents.countP (fun p => p.1 == c.cid) = 0 :=
      List.countP_eq_zero.mpr (fun p hp => by
        simpa using (findIdxVal_none_iff _ _).mp hf p hp)
    have hf2 : findIdxVal (s.mountedComponents ++ [(c.cid, c)]) c.cid
        = some (s.mountedComponents.length, c) :=
      findIdxVal_append_of_none _ _ _ hf rfl
    have htrack2 : trackComponent
          { s with mountedComponents := s.mountedComponents ++ [(c.cid, c)] } c
        = { s with mountedComponents := s.mountedComponents ++ [(c.cid, c)] } := by
      unfold trackComponent
      rw [show ({ s with mountedComponents := s.mountedComponents ++ [(c.cid, c)] }
          : DState).mountedComponents = s.mountedComponents ++ [(c.cid, c)] from rfl, hf2]
    refine ⟨?_, ?_, huntrack⟩
    · rw [htrack, htrack2]
      show (s.mountedComponents ++ [(c.cid, c)]).countP (fun p => p.1 == c.cid) = 1
      rw [List.countP_append]
      simp [List.countP_cons, hzero]
    · intro id
      rw [htrack]
      show (s.mountedComponents ++ [(c.cid, c)]).countP (fun p => p.1 == id) ≤ 1
      rw [List.countP_append]
      by_cases hid : c.cid = id
      · subst hid
        simp [List.countP_cons, hzero]
      · have : ([(c.cid, c)] : List (String × Comp)).countP (fun p => p.1 == id) = 0 := by
          simp [List.countP_cons, hid]
        rw [this]
        have := hinv id
        omega

/-- C7 witness: the idempotence applied at the empty initial table. -/
theorem trackComponent_idempotent_witness :
    (∀ id, initState.mountedComponents.countP (fun p => p.1 == id) ≤ 1)
  ∧ (trackComponent (trackComponent initState childA) childA).mountedComponents.countP
      (fun p => p.1 == childA.cid) = 1 :=
  ⟨fun id => by simp [initState],
    (trackComponent_idempotent initState childA (fun id => by simp [initState])).1⟩

/-! ## Claim C8 -/

/-- C8: a void element serializes as the open tag only (tag, id, classes,
attributes) in both serializers: the output does not depend on the
children, no child content is emitted (the markup node structure is
childless), and no closing tag is emitted. -/
theorem void_serialization (tag eid : String) (cls : List String)
    (attrs : List (String × String)) (evs : List EventB) (kids kids2 : List Child)
    (ctx : RCtx) :
    elementToHTML (.mk tag eid cls attrs evs true kids) = openTagHTML tag eid cls attrs
  ∧ elementToHTML (.mk tag eid cls attrs evs true kids)
      = elementToHTML (.mk tag eid cls attrs evs true kids2)
  ∧ (renderToHTML (.mk tag eid cls attrs evs true kids) ctx).html
      = openTagHTML tag (renderToHTML (.mk tag eid cls attrs evs true kids) ctx).tree.eid
          cls attrs
  ∧ (renderToHTML (.mk tag eid cls attrs evs true kids) ctx).html
      = (renderToHTML (.mk tag eid cls attrs evs true kids2) ctx).html
  ∧ (renderToHTML (.mk tag eid cls attrs evs true kids) ctx).node
      = MNode.mk (renderToHTML (.mk tag eid cls attrs evs true kids) ctx).tree.eid [] := by
  refine ⟨rfl, rfl, ?_, ?_, ?_⟩ <;>
    by_cases hc : 0 < evs.length ∧ eid = "" <;>
      simp [renderToHTML, openTagHTML, Elem.eid, hc]

/-! ## Claim C10 -/

/-- C10 (counterexample): `generateID` renders a `uint64` counter that
wraps, so two distinct calls can return the same string: call number
`2^64 + 1` returns the same string as call number `1`. -/
theorem generateID_wraps_counterexample :
    idOfCall (uint64Mod + 1) = idOfCall 1 ∧ uint64Mod + 1 ≠ 1 := by
  constructor
  · have h1 : (uint64Mod + 1) % uint64Mod = 1 % uint64Mod := Nat.add_mod_left _ _
    rw [idOfCall_eq (uint64Mod + 1) (by omega), idOfCall_eq 1 le_rfl, h1]
  · have := one_lt_uint64Mod
    omega

/-- C10 (amended): every call to `generateID` returns a non-empty string
(the decimal rendering of the incremented counter), and any two distinct
calls among the first `2^64` calls of the process return distinct strings;
beyond that window the `uint64` counter wraps. -/
theorem generateID_nonempty_and_distinct :
    (∀ k : Nat, idOfCall k ≠ "")
  ∧ (∀ j k : Nat, 1 ≤ j → j ≤ uint64Mod → 1 ≤ k → k ≤ uint64Mod → j ≠ k →
      idOfCall j ≠ idOfCall k) := by
  constructor
  · intro k
    unfold idOfCall generateID
    exact decRepr_ne_empty _
  · intro j k hj1 hjW hk1 hkW hjk heq
    rw [idOfCall_eq j hj1, idOfCall_eq k hk1] at heq
    have hmod := decRepr_inj heq
    rcases Nat.lt_or_ge j uint64Mod with hj | hj
    · rw [Nat.mod_eq_of_lt hj] at hmod
      rcases Nat.lt_or_ge k uint64Mod with hk | hk
      · rw [Nat.mod_eq_of_lt hk] at hmod
        exact hjk hmod
      · have hkw : k = uint64Mod := by omega
        subst hkw
        rw [Nat.mod_self] at hmod
        omega
    · have hjw : j = uint64Mod := by omega
      subst hjw
      rw [Nat.mod_self] at hmod
      rcases Nat.lt_or_ge k uint64Mod with hk | hk
      · rw [Nat.mod_eq_of_lt hk] at hmod
        omega
      · have hkw : k = uint64Mod := by omega
        omega

/-- C10 witness: the amended distinctness applied at calls 1 and 2. -/
theorem generateID_nonempty_and_distinct_witness :
    (1 ≤ (1 : Nat) ∧ 1 ≤ uint64Mod ∧ 1 ≤ (2 : Nat) ∧ 2 ≤ uint64Mod ∧ (1 : Nat) ≠ 2)
  ∧ idOfCall 1 ≠ idOfCall 2 :=
  ⟨⟨le_rfl, one_lt_uint64Mod.le, by omega, by norm_num [uint64Mod], by omega⟩,
    generateID_nonempty_and_distinct.2 1 2 le_rfl one_lt_uint64Mod.le (by omega)
      (by norm_num [uint64Mod]) (by omega)⟩

/-! ## Claim C1 -/

/-- C1 (counterexample): rendering `compX` (whose tree contains an inner
non-component element that gets the auto-generated id `1` for its click
binding) and then unmounting it leaves the listener registry with the
entry for id `1` and its callback handle still in the event-function
store — the registry is not empty for every id of the tree. -/
theorem unmount_leaves_inner_element_listener :
    (Render initState "body" compX).1 = Except.ok ()
  ∧ (renderToHTML
        (injectComponentID
          (.mk "div" "" [] [] [⟨"click", 5⟩] false [.elem innerButton, .comp childY]) "x")
        ⟨0, [], []⟩).tree
      = .mk "div" "x" [] [] [⟨"click", 5⟩] false
          [.elem (.mk "button" "1" [] [] [⟨"click", 7⟩] false []), .comp childY]
  ∧ afterUnmountX.componentListeners = [("1", ["1::click"])]
  ∧ afterUnmountX.eventFuncs = [⟨"1::click", 2, 1⟩] := by
  exact ⟨by rfl, by rfl, by decide, by decide⟩

/-- C1 (amended): after rendering a component tree and unmounting it, the
listener registry has no entry for the component's own id or for any
tracked child component's id, and their callback handles are gone from the
event-function store; but entries attributed to identifiers auto-generated
for inner (non-component) elements carrying event bindings remain, along
with their callback handles. -/
theorem unmount_cleans_component_and_children_listeners :
    (Render initState "body" compX).1 = Except.ok ()
  ∧ afterRenderX.componentListeners
      = [("x", ["x::click"]), ("1", ["1::click"]), ("y", ["y::click"])]
  ∧ afterRenderX.eventFuncs
      = [⟨"x::click", 1, 0⟩, ⟨"1::click", 2, 1⟩, ⟨"y::click", 3, 2⟩]
  ∧ findIdxVal afterUnmountX.componentListeners "x" = none
  ∧ findIdxVal afterUnmountX.componentListeners "y" = none
  ∧ (∀ ef ∈ afterUnmountX.eventFuncs, ef.key ≠ "x::click" ∧ ef.key ≠ "y::click")
  ∧ mountedIds afterUnmountX = []
  ∧ afterUnmountX.componentListeners = [("1", ["1::click"])]
  ∧ afterUnmountX.eventFuncs = [⟨"1::click", 2, 1⟩] := by
  exact ⟨by rfl, by decide, by decide, by decide, by decide, by decide, by decide, by decide, by decide⟩

/-! ## Claim C2 -/

/-- C2: re-rendering the parent `p` whose previously tracked child-id list
was `[a, b, c]`, with new content producing child ids `[a, c]`: afterwards
`b` is unmounted (no listener entry, no callback handle, not mounted, node
gone from the document) while `a` and `c` are live (in the document and the
mounted-components table), and the children-of-parent entry for `p` is
exactly `[a, c]`, replaced wholesale. -/
theorem children_replaced_wholesale :
    (Update c2State parentP).1 = Except.ok ()
  ∧ c2After.childrenMap = [("p", ["a", "c"])]
  ∧ (findIdxVal c2After.mountedComponents "b").isSome = false
  ∧ findIdxVal c2After.componentListeners "b" = none
  ∧ (∀ ef ∈ c2After.eventFuncs, ef.key ≠ "b::click")
  ∧ docGetElementById c2After.doc "b" = none
  ∧ c2After.mountedComponents.map Prod.fst = ["p", "a", "c"]
  ∧ (docGetElementById c2After.doc "a").isSome = true
  ∧ (docGetElementById c2After.doc "c").isSome = true := by
  exact ⟨by rfl, by decide, by decide, by decide, by decide, by decide, by decide, by decide, by decide⟩

/-! ## Claim C3 -/

/-- C3 (counterexample): after the parent is updated (or unmounted), the
element cache still holds the pre-operation node handle `2` for the wiped
child `a`, and a subsequent `Get` returns that stale handle instead of
re-resolving against the live document (where `a` now has handle `4`
after the update, and no node at all after the unmount). -/
theorem stale_child_cache_counterexample :
    c3s3.elementCache = [("a", 2), ("p", 1)]
  ∧ ("a", 2) ∈ c3AfterUpdate.elementCache
  ∧ (Get c3AfterUpdate "a").2 = some 2
  ∧ docGetElementById c3AfterUpdate.doc "a" = some 4
  ∧ ("a", 2) ∈ c3AfterUnmount.elementCache
  ∧ (Get c3AfterUnmount "a").2 = some 2
  ∧ docGetElementById c3AfterUnmount.doc "a" = none := by
  exact ⟨by decide, by decide, by decide, by decide, by decide, by decide, by decide⟩

/-- C3 (amended): `Update` and `Unmount` invalidate the element-cache entry
for the operated component's own id (a subsequent `Get` of that id
re-resolves against the live document), but cached handles for other ids
whose nodes were wiped by the subtree replacement — such as previously
tracked children — are not invalidated and keep their pre-operation
handles. -/
theorem cache_invalidation_own_id_only :
    (Update c3s3 compP3).1 = Except.ok ()
  ∧ findIdxVal c3AfterUpdate.elementCache "p" = none
  ∧ (Get c3AfterUpdate "p").2 = some 3
  ∧ docGetElementById c3AfterUpdate.doc "p" = some 3
  ∧ findIdxVal c3AfterUnmount.elementCache "p" = none
  ∧ ("a", 2) ∈ c3AfterUpdate.elementCache
  ∧ ("a", 2) ∈ c3AfterUnmount.elementCache := by
  exact ⟨by rfl, by decide, by decide, by decide, by decide, by decide, by decide⟩

/-! ## Claim C9 -/

/-- C9: a `Render` whose parent id does not resolve returns the error but
keeps the state mutated before the failure: the component keeps the id
(`1`) assigned during the failed call, the pending-event entry produced by
serialization stays queued, the component is not tracked; and the next
successful `Render` wires the stale entry as well as the fresh one — the
event-function store ends up with two callbacks under `btn::click`. -/
theorem failed_render_keeps_pending_events :
    c9Fail.1 = Except.error "parent element not found: nope"
  ∧ c9Fail.2.2.cid = "1"
  ∧ c9Fail.2.1.pendingEvents = [⟨"btn", "click", 9⟩]
  ∧ mountedIds c9Fail.2.1 = []
  ∧ c9Retry.1 = Except.ok ()
  ∧ c9Retry.2.1.eventFuncs.map EventFunc.key = ["btn::click", "btn::click"]
  ∧ c9Retry.2.1.componentListeners = [("btn", ["btn::click", "btn::click"])]
  ∧ c9Retry.2.1.pendingEvents = [] := by
  exact ⟨by rfl, by decide, by decide, by decide, by rfl, by decide, by decide, by decide⟩

end TinywasmDom
